import Mathlib

/-!
# PFMS: personal finance dashboard (server.js and assets/js/script.js)

A shallow embedding of the Express/SQLite backend (`server.js`) and of the
calculations of the browser client (`assets/js/script.js`), followed by the
properties proved about them.

Modelling conventions.

* The SQLite database is an explicit state `Db`; every route handler is a pure
  function from the state and the request to a response and the next state.
  Requests are executed one after the other.
* JSON numbers and `REAL` columns are exact rationals (`ℚ`): decimal amounts are
  idealised, rounding of IEEE doubles is not modelled.
* Row ids are unbounded naturals (the 2^63 limit of SQLite rowids is never reached).
* Storage faults other than constraint violations (disk errors and the like) are
  outside the model; `Resp.dbError` arises from `NOT NULL` and `UNIQUE` violations.
* Dates are `TEXT`; the client-side `new Date(text)` is modelled for the date-only
  ISO form `YYYY-MM-DD`, which is what the date input of the dashboard produces.
* Local time is UTC shifted by a constant offset of less than a day (`Env`); the
  browser and the server each have their own.
* Request fields carry values of the documented JSON types (texts for date, type,
  username and password; numbers for amount, month and year), or are `null` or
  missing (`Field`).
-/

namespace PFMS

/-! ## JavaScript and SQLite primitives -/

/-- A field of a JSON request body after destructuring: the key is missing
(`undefined`), carries `null`, or carries a value of the documented type. -/
inductive Field (α : Type) where
  | undefined
  | null
  | val (a : α)
deriving DecidableEq

/-- The outcome of `Number(text)`: a finite number, or `nan` for everything that is
not one (`NaN`; the infinities behave like `NaN` in every use made of them here). -/
inductive JsNumber where
  | nan
  | num (q : ℚ)
deriving DecidableEq

/-- The test `Number.isInteger(x)`. -/
def JsNumber.isInteger : JsNumber → Bool
  | .nan => false
  | .num q => q.isInt

/-- The integer carried by a number for which `Number.isInteger` holds. -/
def JsNumber.toInt : JsNumber → Int
  | .nan => 0
  | .num q => q.num

/-- JavaScript truthiness of a string-valued field: `!x` holds for `undefined`,
`null` and the empty string. -/
def truthy : Field String → Bool
  | .val s => decide (s ≠ "")
  | _ => false

/-- The test `typeof x === 'undefined'`. -/
def Field.isUndefined {α : Type} : Field α → Bool
  | .undefined => true
  | _ => false

/-- The value bound to a `?` placeholder: `null` binds SQL `NULL`. -/
def Field.toSql {α : Type} : Field α → Option α
  | .val a => some a
  | _ => none

/-- The expression `x || null` on a string-valued field. -/
def orNull : Field String → Option String
  | .val s => if s = "" then none else some s
  | _ => none

/-- Template-literal rendering of an integer number: decimal digits, with a minus
sign for negative values (exponent notation only starts at 1e21, far beyond the
values that pass the `Date` range checks). -/
def numToString (z : Int) : String :=
  if z < 0 then "-" ++ Nat.repr z.natAbs else Nat.repr z.toNat

/-- The call `s.padStart(2, '0')`. -/
def padStart2 (s : String) : String :=
  String.mk (List.replicate (2 - s.length) '0') ++ s

/-- SQLite `substr(text, 1, 7)`: the first seven characters. -/
def substr7 (s : String) : String :=
  String.mk (s.data.take 7)

/-! ### The part of `Date` the program uses -/

/-- The browser or server environment: the offset of local time from UTC in
minutes (positive east of Greenwich), taken as constant and within a day. -/
structure Env where
  tzOffsetMinutes : Int
  tz_lower : -1440 < tzOffsetMinutes
  tz_upper : tzOffsetMinutes < 1440

/-- Milliseconds per day. -/
def msPerDay : Int := 86400000

/-- Largest magnitude of a valid time value (ECMAScript `TimeClip`). -/
def maxTime : Int := 8640000000000000

/-- Day number (days since 1970-01-01) of the first day of month `mn` (0 to 11)
of the proleptic Gregorian year `ym`. -/
def dayFromYearMonth (ym mn : Int) : Int :=
  let y := if mn < 2 then ym - 1 else ym
  let era := y / 400
  let yoe := y - era * 400
  let mp := (mn + 10) % 12
  let doy := (153 * mp + 2) / 5
  let doe := yoe * 365 + yoe / 4 - yoe / 100 + doy
  era * 146097 + doe - 719468

/-- ECMAScript `TimeClip`: `none` stands for `NaN` (an invalid date). -/
def timeClip (t : Int) : Option Int :=
  if t.natAbs ≤ maxTime.natAbs then some t else none

/-- The time value of `new Date(year, month, 1)` for integer arguments: years 0 to
99 denote 1900 to 1999, the month overflows into the year, local midnight is
converted to UTC. -/
def newDate (env : Env) (year month : Int) : Option Int :=
  let yr := if 0 ≤ year ∧ year ≤ 99 then 1900 + year else year
  let day := dayFromYearMonth (yr + month / 12) (month % 12)
  timeClip (day * msPerDay - env.tzOffsetMinutes * 60000)

/-- The value of `endDate` after `endDate.setSeconds(endDate.getSeconds() - 1)`:
one second before local midnight of the first day of the next month. -/
def endDate (env : Env) (year month : Int) : Option Int :=
  match newDate env year (month + 1) with
  | none => none
  | some t => timeClip (t - 1000)

/-- Whether both `toISOString()` calls of the month filter return: the method
throws a `RangeError` on an invalid date. -/
def toISOStringOk (env : Env) (year month : Int) : Bool :=
  (newDate env year month).isSome && (endDate env year month).isSome

/-- Whether `y` is a leap year of the Gregorian calendar. -/
def isLeapYear (y : Nat) : Bool :=
  (y % 4 == 0 && y % 100 != 0) || y % 400 == 0

/-- Number of days of month `m` (1 to 12) in year `y`. -/
def daysInMonth (y m : Nat) : Nat :=
  if m = 2 then (if isLeapYear y then 29 else 28)
  else if m = 4 ∨ m = 6 ∨ m = 9 ∨ m = 11 then 30
  else 31

/-- A calendar date: year, month (1 to 12) and day of month. -/
structure CalendarDate where
  year : Nat
  month : Nat
  day : Nat
deriving DecidableEq

/-- Value of a decimal digit character. -/
def digitVal (c : Char) : Nat := c.toNat - 48

/-- Reads a date-only ISO text `YYYY-MM-DD` naming a day that exists; every other
text gives `none`. -/
def parseIsoDate (s : String) : Option CalendarDate :=
  match s.data with
  | [y1, y2, y3, y4, s1, m1, m2, s2, d1, d2] =>
    let y := 1000 * digitVal y1 + 100 * digitVal y2 + 10 * digitVal y3 + digitVal y4
    let m := 10 * digitVal m1 + digitVal m2
    let d := 10 * digitVal d1 + digitVal d2
    if y1.isDigit ∧ y2.isDigit ∧ y3.isDigit ∧ y4.isDigit ∧ s1 = '-' ∧ m1.isDigit ∧ m2.isDigit
        ∧ s2 = '-' ∧ d1.isDigit ∧ d2.isDigit ∧ 1 ≤ m ∧ m ≤ 12 ∧ 1 ≤ d ∧ d ≤ daysInMonth y m then
      some ⟨y, m, d⟩
    else none
  | _ => none

/-- The call `new Date(text).getMonth()` on a date-only ISO text: the text is read as
midnight UTC and the month (0 to 11) is taken in local time, so west of Greenwich
the first day of a month still belongs to the month before. Other texts are outside
the modelled fragment and give `none`. -/
def getMonth (env : Env) (text : String) : Option Nat :=
  match parseIsoDate text with
  | none => none
  | some d =>
    if env.tzOffsetMinutes < 0 ∧ d.day = 1 then some ((d.month + 10) % 12)
    else some (d.month - 1)

/-! ## Data model (the three tables of `server.js`) -/

/-- A row of `users`. -/
structure User where
  id : Nat
  username : String
  password : String
deriving DecidableEq

/-- A row of `transactions`. -/
structure Transaction where
  id : Nat
  date : String
  type : String
  category : Option String
  description : Option String
  amount : ℚ
  created_at : String
deriving DecidableEq

/-- A row of `budgets`. -/
structure Budget where
  id : Nat
  month : Int
  year : Int
  amount : ℚ
deriving DecidableEq

/-- The database: the three tables and the `sqlite_sequence` counters that
`AUTOINCREMENT` keeps for `transactions` and `budgets`. -/
structure Db where
  users : List User
  transactions : List Transaction
  transactionsSeq : Nat
  budgets : List Budget
  budgetsSeq : Nat

/-- The rowid `AUTOINCREMENT` assigns: one more than the largest rowid that is or
ever was in the table. -/
def nextRowid (ids : List Nat) (seq : Nat) : Nat :=
  ids.foldr max seq + 1

/-- The response of a route handler. -/
inductive Resp (α : Type) where
  | ok (a : α)
  | missingFields
  | invalidCredentials
  | dbError
  | uncaught
deriving DecidableEq

/-- The HTTP status of a response; an exception thrown inside a handler is answered
by the default error handler of Express with status 500. -/
def Resp.status {α : Type} : Resp α → Nat
  | .ok _ => 200
  | .missingFields => 400
  | .invalidCredentials => 401
  | .dbError => 500
  | .uncaught => 500

/-! ## Server: route handlers of `server.js` -/

/-- The comparison behind `ORDER BY date DESC, id DESC`: `a` may precede `b`. Text is
compared character by character (the `BINARY` collation). -/
def dateIdDesc (a b : Transaction) : Prop :=
  b.date < a.date ∨ (a.date = b.date ∧ b.id ≤ a.id)

instance dateIdDesc.decidable : DecidableRel dateIdDesc :=
  fun a b => by unfold dateIdDesc; exact inferInstance

/-- The clause `ORDER BY date DESC, id DESC` applied to a result set. -/
def orderByDateIdDesc (rows : List Transaction) : List Transaction :=
  rows.insertionSort dateIdDesc

/-- Handler of `POST /api/login` (server.js 63-72). -/
def login (db : Db) (username password : Field String) : Resp Nat :=
  if !truthy username || !truthy password then .missingFields
  else
    match db.users.find? (fun row =>
        decide (some row.username = username.toSql ∧ some row.password = password.toSql)) with
    | none => .invalidCredentials
    | some row => .ok row.id

/-- The constant `monthStr` of the month filter: the year, a dash, and the month plus
one padded to two digits. -/
def monthStr (year month : Int) : String :=
  numToString year ++ "-" ++ padStart2 (numToString (month + 1))

/-- Handler of `GET /api/transactions` (server.js 75-97). An argument is `none` when
the query parameter is missing (the handler's `null`), otherwise the result of
`Number(...)`. The two `toISOString()` calls compute values that are never used, but
they throw for a month outside the range of `Date`. -/
def listTransactions (env : Env) (db : Db) (month year : Option JsNumber) :
    Resp (List Transaction) :=
  match month, year with
  | some m, some y =>
    if m.isInteger && y.isInteger then
      if toISOStringOk env y.toInt m.toInt then
        .ok (orderByDateIdDesc
          (db.transactions.filter (fun t => substr7 t.date = monthStr y.toInt m.toInt)))
      else .uncaught
    else .ok (orderByDateIdDesc db.transactions)
  | _, _ => .ok (orderByDateIdDesc db.transactions)

/-- The JSON body of `POST /api/transactions`. -/
structure NewTransaction where
  date : Field String
  type : Field String
  category : Field String
  description : Field String
  amount : Field ℚ

/-- The statement `INSERT INTO transactions (date, type, category, description, amount)`:
fails on a `NOT NULL` violation, otherwise appends the row under a fresh rowid and
reports it as `lastID`. The column `created_at` takes the current timestamp `now`. -/
def insertTransaction (db : Db) (date type category description : Option String)
    (amount : Option ℚ) (now : String) : Option (Nat × Db) :=
  match date, type, amount with
  | some d, some ty, some a =>
    let id := nextRowid (db.transactions.map (·.id)) db.transactionsSeq
    some (id, { db with
      transactions := db.transactions ++ [⟨id, d, ty, category, description, a, now⟩]
      transactionsSeq := id })
  | _, _, _ => none

/-- Handler of `POST /api/transactions` (server.js 100-113): the response carries the
row read back by `SELECT * FROM transactions WHERE id = lastID`. -/
def createTransaction (db : Db) (body : NewTransaction) (now : String) :
    Resp (Option Transaction) × Db :=
  if !truthy body.date || !truthy body.type || body.amount.isUndefined then (.missingFields, db)
  else
    match insertTransaction db body.date.toSql body.type.toSql (orNull body.category)
        (orNull body.description) body.amount.toSql now with
    | none => (.dbError, db)
    | some (lastID, db') => (.ok (db'.transactions.find? (fun row => row.id = lastID)), db')

/-- Handler of `DELETE /api/transactions/:id` (server.js 116-122): `id` is
`Number(req.params.id)` and the response carries `this.changes`, the number of rows
deleted. -/
def deleteTransaction (db : Db) (id : JsNumber) : Resp Nat × Db :=
  let kept := db.transactions.filter (fun row => ¬ (JsNumber.num row.id = id))
  (.ok (db.transactions.length - kept.length), { db with transactions := kept })

/-- The statement `UPDATE budgets SET amount = ? WHERE month = ? AND year = ?`: the new
table and `this.changes`; fails when a matched row would get a `NULL` amount. A `NULL`
month or year matches no row. -/
def updateBudget (rows : List Budget) (amount : Option ℚ) (month year : Option Int) :
    Option (List Budget × Nat) :=
  let hit : Budget → Bool := fun b => decide (some b.month = month ∧ some b.year = year)
  let changes := (rows.filter hit).length
  match amount with
  | none => if changes = 0 then some (rows, 0) else none
  | some a => some (rows.map (fun b => if hit b then { b with amount := a } else b), changes)

/-- The statement `INSERT INTO budgets (month, year, amount)`: fails on a `NOT NULL`
violation and on a second row for a `(month, year)` pair (`UNIQUE(month, year)`). -/
def insertBudget (rows : List Budget) (seq : Nat) (month year : Option Int)
    (amount : Option ℚ) : Option (List Budget × Nat) :=
  match month, year, amount with
  | some m, some y, some a =>
    if rows.any (fun b => decide (b.month = m ∧ b.year = y)) then none
    else
      let id := nextRowid (rows.map (·.id)) seq
      some (rows ++ [⟨id, m, y, a⟩], id)
  | _, _, _ => none

/-- Handler of `POST /api/budgets` (server.js 133-150): update, and insert when no
row changed. -/
def setBudget (db : Db) (month year : Field Int) (amount : Field ℚ) : Resp Bool × Db :=
  if month.isUndefined || year.isUndefined || amount.isUndefined then (.missingFields, db)
  else
    match updateBudget db.budgets amount.toSql month.toSql year.toSql with
    | none => (.dbError, db)
    | some (rows, changes) =>
      if changes = 0 then
        match insertBudget rows db.budgetsSeq month.toSql year.toSql amount.toSql with
        | none => (.dbError, { db with budgets := rows })
        | some (rows', seq) => (.ok true, { db with budgets := rows', budgetsSeq := seq })
      else (.ok true, { db with budgets := rows })

/-! ## Client: calculations of `assets/js/script.js` -/

/-- Client call `apiGetTransactions(month, year)` (script.js 43-48): with both
arguments the query string `?month=..&year=..` is sent, otherwise none. An error
answer in JSON gives the empty list; `none` is the rejected promise when the answer
is not JSON at all. -/
def apiGetTransactions (server : Env) (db : Db) (filter : Option (Int × Int)) :
    Option (List Transaction) :=
  let resp :=
    match filter with
    | some (month, year) => listTransactions server db (some (.num month)) (some (.num year))
    | none => listTransactions server db none none
  match resp with
  | .ok rows => some rows
  | .uncaught => none
  | _ => some []

/-- The month (0 to 11) named by a date-only ISO text, as written in the text. -/
def calendarMonth (text : String) : Option Nat :=
  (parseIsoDate text).map (fun d => d.month - 1)

/-- A text field that carries nothing: the key is missing, or holds `null` or the
empty text. These are the values for which the test `!x` of the handlers holds. -/
def Field.absent (f : Field String) : Prop :=
  f = .undefined ∨ f = .null ∨ f = .val ""

/-- Whether a budget row is the one for month `m` of year `y`. -/
def keyIs (m y : Int) (b : Budget) : Bool :=
  decide (b.month = m ∧ b.year = y)

/-- The key of a budget row under `UNIQUE(month, year)`. -/
def budgetKey (b : Budget) : Int × Int :=
  (b.month, b.year)

/-- A budget row with its amount overwritten. -/
def withAmount (a : ℚ) (b : Budget) : Budget :=
  { b with amount := a }

/-! ## Sample data -/

/-- An environment whose local time is UTC. -/
def utc : Env := ⟨0, by decide, by decide⟩

/-- An environment five hours behind UTC. -/
def newYork : Env := ⟨-300, by decide, by decide⟩

/-- The store after the demo user spent 6000 in March 2025 against a budget of 5000. -/
def demoDb : Db :=
  { users := [⟨1, "admin", "admin"⟩]
    transactions :=
      [⟨1, "2025-03-15", "expense", some "Food", none, 6000, "2025-03-15 10:00:00"⟩]
    transactionsSeq := 1
    budgets := [⟨1, 2, 2025, 5000⟩]
    budgetsSeq := 1 }

/-- The listing without a filter always answers, with every row in order. -/
theorem apiGetTransactions_all (env : Env) (db : Db) :
    apiGetTransactions env db none = some (orderByDateIdDesc db.transactions) := rfl

/-- West of Greenwich the first day of a month is counted under the month before:
an expense dated 2025-03-01 is read as February in a browser five hours behind UTC. -/
theorem getMonth_west_of_utc :
    getMonth newYork "2025-03-01" = some 1 ∧ calendarMonth "2025-03-01" = some 2 := by
  constructor <;> decide

/-! ## Budget progress -/

theorem num_id_eq_iff (a b : Nat) : JsNumber.num (a : ℚ) = JsNumber.num (b : ℚ) ↔ a = b := by
  constructor
  · intro h
    injection h with h
    exact_mod_cast h
  · intro h
    rw [h]

/-- Nothing is filtered out when no row carries the id. -/
theorem filter_id_of_absent (rows : List Transaction) (id : JsNumber)
    (h : ∀ row ∈ rows, JsNumber.num (row.id : ℚ) ≠ id) :
    rows.filter (fun row => decide ¬ (JsNumber.num (row.id : ℚ) = id)) = rows := by
  rw [List.filter_eq_self]
  intro row hrow
  simpa using h row hrow

/-- With unique ids, filtering out the id of a stored row erases exactly that row. -/
theorem filter_id_eq_erase (rows : List Transaction) (row : Transaction)
    (hnodup : (rows.map (·.id)).Nodup) (hrow : row ∈ rows) :
    rows.filter (fun r => decide ¬ (JsNumber.num (r.id : ℚ) = JsNumber.num (row.id : ℚ)))
      = rows.erase row := by
  induction rows with
  | nil => simp at hrow
  | cons r rows ih =>
    rw [List.map_cons, List.nodup_cons] at hnodup
    obtain ⟨hr, hrest⟩ := hnodup
    by_cases heq : r = row
    · subst heq
      rw [List.erase_cons_head, List.filter_cons]
      simp only [not_true_eq_false, decide_False, Bool.false_eq_true, ↓reduceIte]
      apply filter_id_of_absent
      intro x hx hxe
      rw [num_id_eq_iff] at hxe
      exact hr (hxe ▸ List.mem_map_of_mem (·.id) hx)
    · have hmem : row ∈ rows := by
        rcases List.mem_cons.mp hrow with h | h
        · exact absurd h.symm heq
        · exact h
      have hid : r.id ≠ row.id := fun h => hr (h ▸ List.mem_map_of_mem (·.id) hmem)
      rw [List.erase_cons_tail (by simpa using heq), List.filter_cons]
      simp only [num_id_eq_iff, hid, not_false_eq_true, decide_True, ↓reduceIte]
      rw [← ih hrest hmem]
      simp only [num_id_eq_iff]

/-- C7: on a store with unique ids `deleteTransaction` always answers `ok` with a
count of at most one, and never touches users, budgets or the id counters; when no
row has the id the count is 0 and the store is unchanged; when a row has it the
count is 1 and the transactions are the old ones with exactly that row erased. -/
theorem deleteTransaction_frame (db : Db) (id : JsNumber)
    (hids : (db.transactions.map (·.id)).Nodup) :
    ∃ n db', deleteTransaction db id = (.ok n, db')
      ∧ n ≤ 1
      ∧ db'.users = db.users ∧ db'.budgets = db.budgets
      ∧ db'.budgetsSeq = db.budgetsSeq ∧ db'.transactionsSeq = db.transactionsSeq
      ∧ ((∀ row ∈ db.transactions, JsNumber.num (row.id : ℚ) ≠ id) → n = 0 ∧ db' = db)
      ∧ (∀ row ∈ db.transactions, JsNumber.num (row.id : ℚ) = id →
          n = 1 ∧ db'.transactions = db.transactions.erase row
            ∧ row ∉ db'.transactions
            ∧ ∀ other ∈ db.transactions, other ≠ row → other ∈ db'.transactions) := by
  have hmiss : (∀ row ∈ db.transactions, JsNumber.num (row.id : ℚ) ≠ id) →
      deleteTransaction db id = (.ok 0, db) := by
    intro h
    unfold deleteTransaction
    simp only [filter_id_of_absent _ _ h, Nat.sub_self]
  have hhit : ∀ row ∈ db.transactions, JsNumber.num (row.id : ℚ) = id →
      (deleteTransaction db id).1 = .ok 1
        ∧ (deleteTransaction db id).2.transactions = db.transactions.erase row := by
    intro row hrow hid
    subst hid
    unfold deleteTransaction
    simp only [filter_id_eq_erase _ _ hids hrow, List.length_erase_of_mem hrow]
    have : 0 < db.transactions.length := List.length_pos_of_mem hrow
    exact ⟨by congr 1; omega, trivial⟩
  have hnd : db.transactions.Nodup := List.Nodup.of_map _ hids
  by_cases h : ∀ row ∈ db.transactions, JsNumber.num (row.id : ℚ) ≠ id
  · refine ⟨0, db, hmiss h, Nat.zero_le 1, rfl, rfl, rfl, rfl, fun _ => ⟨rfl, rfl⟩, ?_⟩
    intro row hrow hid
    exact absurd hid (h row hrow)
  · refine ⟨1, (deleteTransaction db id).2, ?_, le_refl 1, rfl, rfl, rfl, rfl, ?_, ?_⟩
    · push_neg at h
      obtain ⟨row, hrow, hid⟩ := h
      exact Prod.ext (hhit row hrow hid).1 rfl
    · intro hall
      exact absurd hall h
    · intro row hrow hid
      obtain ⟨-, herase⟩ := hhit row hrow hid
      refine ⟨rfl, herase, ?_, ?_⟩
      · rw [herase]
        exact fun hmem => ((List.Nodup.mem_erase_iff hnd).mp hmem).1 rfl
      · intro other hother hne
        rw [herase]
        exact (List.mem_erase_of_ne hne).mpr hother

/-- Witness for C7: deleting id 1 from the demo store. -/
theorem deleteTransaction_frame_witness :
    ∃ n db', deleteTransaction demoDb (.num 1) = (.ok n, db')
      ∧ n ≤ 1
      ∧ db'.users = demoDb.users ∧ db'.budgets = demoDb.budgets
      ∧ db'.budgetsSeq = demoDb.budgetsSeq ∧ db'.transactionsSeq = demoDb.transactionsSeq
      ∧ ((∀ row ∈ demoDb.transactions, JsNumber.num (row.id : ℚ) ≠ .num 1) → n = 0 ∧ db' = demoDb)
      ∧ (∀ row ∈ demoDb.transactions, JsNumber.num (row.id : ℚ) = .num 1 →
          n = 1 ∧ db'.transactions = demoDb.transactions.erase row
            ∧ row ∉ db'.transactions
            ∧ ∀ other ∈ demoDb.transactions, other ≠ row → other ∈ db'.transactions) :=
  deleteTransaction_frame demoDb (.num 1) (by decide)

/-! ## Login -/

/-- The test `!x` holds exactly for the absent fields. -/
theorem truthy_eq_false_iff (f : Field String) : truthy f = false ↔ f.absent := by
  cases f with
  | undefined => simp [truthy, Field.absent]
  | null => simp [truthy, Field.absent]
  | val s => simp [truthy, Field.absent]

/-- C9: `login` answers `MissingFields` (400), whatever the table, when the
username or the password is absent (missing, `null` or empty); otherwise both are
non-empty texts `u` and `p`, and it answers `ok` with the id of a stored user whose
username is exactly `u` and whose password is exactly `p` if and only if such a
user is stored, and `InvalidCredentials` (401) if none is. -/
theorem login_spec (db : Db) (username password : Field String) :
    ((username.absent ∨ password.absent) →
        login db username password = .missingFields
          ∧ (login db username password).status = 400)
      ∧ (¬ username.absent → ¬ password.absent →
          ∃ u p, username = .val u ∧ password = .val p
            ∧ ((∃ uid, login db username password = .ok uid)
                ↔ ∃ row ∈ db.users, row.username = u ∧ row.password = p)
            ∧ (∀ uid, login db username password = .ok uid →
                ∃ row ∈ db.users, row.id = uid ∧ row.username = u ∧ row.password = p)
            ∧ ((¬ ∃ row ∈ db.users, row.username = u ∧ row.password = p) →
                login db username password = .invalidCredentials
                  ∧ (login db username password).status = 401)) := by
  constructor
  · intro h
    have : login db username password = .missingFields := by
      unfold login
      rcases h with h | h
      · simp [(truthy_eq_false_iff username).mpr h]
      · simp [(truthy_eq_false_iff password).mpr h]
    rw [this]
    exact ⟨rfl, rfl⟩
  · intro hu hp
    obtain ⟨u, rfl, hune⟩ : ∃ u, username = .val u ∧ u ≠ "" := by
      cases username with
      | undefined => exact absurd (Or.inl rfl) hu
      | null => exact absurd (Or.inr (Or.inl rfl)) hu
      | val s => exact ⟨s, rfl, fun h => hu (Or.inr (Or.inr (by rw [h])))⟩
    obtain ⟨p, rfl, hpne⟩ : ∃ p, password = .val p ∧ p ≠ "" := by
      cases password with
      | undefined => exact absurd (Or.inl rfl) hp
      | null => exact absurd (Or.inr (Or.inl rfl)) hp
      | val s => exact ⟨s, rfl, fun h => hp (Or.inr (Or.inr (by rw [h])))⟩
    refine ⟨u, p, rfl, rfl, ?_⟩
    have hlogin : login db (.val u) (.val p)
        = match db.users.find? (fun row => decide (row.username = u ∧ row.password = p)) with
          | none => .invalidCredentials
          | some row => .ok row.id := by
      unfold login
      simp [truthy, hune, hpne, Field.toSql]
    cases hfind : db.users.find? (fun row => decide (row.username = u ∧ row.password = p)) with
    | none =>
      rw [hfind] at hlogin
      have hnone : ¬ ∃ row ∈ db.users, row.username = u ∧ row.password = p := by
        rintro ⟨row, hrow, hmatch⟩
        have := List.find?_eq_none.mp hfind row hrow
        simp [hmatch] at this
      rw [hlogin]
      refine ⟨⟨fun ⟨_, h⟩ => (by cases h), fun h => absurd h hnone⟩, fun _ h => (by cases h),
        fun _ => ⟨rfl, rfl⟩⟩
    | some row =>
      rw [hfind] at hlogin
      have hmem : row ∈ db.users := List.mem_of_find?_eq_some hfind
      have hmatch : row.username = u ∧ row.password = p := by
        simpa using List.find?_some hfind
      rw [hlogin]
      refine ⟨⟨fun _ => ⟨row, hmem, hmatch⟩, fun _ => ⟨row.id, rfl⟩⟩, ?_, ?_⟩
      · intro uid h
        injection h with h
        exact ⟨row, hmem, h, hmatch⟩
      · intro h
        exact absurd ⟨row, hmem, hmatch⟩ h

/-- Witness for C9: `admin` with the password `wrong` against the seeded user
`admin`/`admin` is answered with 401, and a request without a password with 400. -/
theorem login_spec_witness :
    (login demoDb (.val "admin") .undefined = .missingFields
        ∧ (login demoDb (.val "admin") .undefined).status = 400)
      ∧ ∃ u p, Field.val "admin" = .val u ∧ Field.val "wrong" = .val p
          ∧ ((∃ uid, login demoDb (.val "admin") (.val "wrong") = .ok uid)
              ↔ ∃ row ∈ demoDb.users, row.username = u ∧ row.password = p)
          ∧ (∀ uid, login demoDb (.val "admin") (.val "wrong") = .ok uid →
              ∃ row ∈ demoDb.users, row.id = uid ∧ row.username = u ∧ row.password = p)
          ∧ ((¬ ∃ row ∈ demoDb.users, row.username = u ∧ row.password = p) →
              login demoDb (.val "admin") (.val "wrong") = .invalidCredentials
                ∧ (login demoDb (.val "admin") (.val "wrong")).status = 401) :=
  ⟨(login_spec demoDb (.val "admin") .undefined).1 (Or.inr (Or.inl rfl)),
    (login_spec demoDb (.val "admin") (.val "wrong")).2
      (by simp [Field.absent]) (by simp [Field.absent])⟩

/-! ## Creating a transaction: the presence check -/

/-- C8 fails on the code: a body whose `amount` is `null` passes the presence check
(`typeof null` is not `'undefined'`), the insert then violates `NOT NULL` on
`amount`, and the request is answered with `DbError` (500) instead of
`MissingFields` (400). Nothing is stored. -/
theorem createTransaction_null_amount (db : Db) (now : String) :
    createTransaction db
        ⟨.val "2025-03-15", .val "expense", .val "Food", .undefined, .null⟩ now
      = (.dbError, db)
    ∧ (createTransaction db
        ⟨.val "2025-03-15", .val "expense", .val "Food", .undefined, .null⟩ now).1.status
      = 500 := by
  constructor <;> rfl

/-- The presence check as far as it goes: a body whose date or type is missing,
`null` or empty, or whose amount is missing, is answered with `MissingFields` (400)
and nothing is stored. -/
theorem createTransaction_missing (db : Db) (body : NewTransaction) (now : String)
    (h : body.date.absent ∨ body.type.absent ∨ body.amount = .undefined) :
    createTransaction db body now = (.missingFields, db) := by
  unfold createTransaction
  rcases h with h | h | h
  · simp [(truthy_eq_false_iff _).mpr h]
  · simp [(truthy_eq_false_iff _).mpr h]
  · simp [h, Field.isUndefined]

/-! ## Setting a budget -/

theorem keyIs_iff (m y : Int) (b : Budget) : keyIs m y b = true ↔ budgetKey b = (m, y) := by
  simp [keyIs, budgetKey]

theorem keyIs_withAmount (m y : Int) (a : ℚ) (b : Budget) :
    keyIs m y (withAmount a b) = keyIs m y b := rfl

/-- The effect of the `UPDATE` statement when all three values are given. -/
theorem updateBudget_some (rows : List Budget) (a : ℚ) (m y : Int) :
    updateBudget rows (some a) (some m) (some y)
      = some (rows.map (fun b => if keyIs m y b then withAmount a b else b),
          (rows.filter (keyIs m y)).length) := by
  have h : (fun b : Budget => decide (some b.month = some m ∧ some b.year = some y))
      = keyIs m y := by
    funext b
    simp [keyIs]
  have h' : ∀ b : Budget, decide (some b.month = some m ∧ some b.year = some y) = keyIs m y b :=
    fun b => congrFun h b
  unfold updateBudget
  simp only [h, h']
  rfl

/-- The effect of the `INSERT` statement when all three values are given. -/
theorem insertBudget_some (rows : List Budget) (seq : Nat) (a : ℚ) (m y : Int) :
    insertBudget rows seq (some m) (some y) (some a)
      = if rows.any (keyIs m y) then none
        else some (rows ++ [⟨nextRowid (rows.map (·.id)) seq, m, y, a⟩],
          nextRowid (rows.map (·.id)) seq) := rfl

/-- Rewriting amounts keeps the keys of all rows. -/
theorem map_update_keys (rows : List Budget) (a : ℚ) (m y : Int) :
    (rows.map (fun b => if keyIs m y b then withAmount a b else b)).map budgetKey
      = rows.map budgetKey := by
  rw [List.map_map]
  apply List.map_congr_left
  intro b _
  simp only [Function.comp]
  split_ifs <;> rfl

/-- The rows of the key after the update are the old rows of the key, rewritten. -/
theorem filter_map_update (rows : List Budget) (a : ℚ) (m y : Int) :
    (rows.map (fun b => if keyIs m y b then withAmount a b else b)).filter (keyIs m y)
      = (rows.filter (keyIs m y)).map (withAmount a) := by
  induction rows with
  | nil => rfl
  | cons b rows ih =>
    by_cases hk : keyIs m y b = true
    · rw [List.map_cons, if_pos hk, List.filter_cons, keyIs_withAmount, if_pos hk,
        List.filter_cons, if_pos hk, List.map_cons, ih]
    · rw [List.map_cons, if_neg hk, List.filter_cons, if_neg hk, List.filter_cons, if_neg hk, ih]

/-- A table with unique keys holds at most one row per key. -/
theorem filter_key_length_le_one (rows : List Budget) (m y : Int)
    (h : (rows.map budgetKey).Nodup) : (rows.filter (keyIs m y)).length ≤ 1 := by
  induction rows with
  | nil => simp
  | cons b rows ih =>
    rw [List.map_cons, List.nodup_cons] at h
    obtain ⟨hb, hrest⟩ := h
    by_cases hk : keyIs m y b = true
    · have hnone : rows.filter (keyIs m y) = [] := by
        rw [List.filter_eq_nil_iff]
        intro x hx hxk
        apply hb
        rw [List.mem_map]
        exact ⟨x, hx, by rw [(keyIs_iff m y x).mp hxk, (keyIs_iff m y b).mp hk]⟩
      rw [List.filter_cons, if_pos hk, hnone]
      exact le_refl 1
    · rw [List.filter_cons, if_neg hk]
      exact ih hrest

/-- Rows of another key are neither added nor removed nor changed by the update. -/
theorem mem_map_update_of_other (rows : List Budget) (a : ℚ) (m y : Int) (b : Budget)
    (hb : keyIs m y b = false) :
    b ∈ rows.map (fun b => if keyIs m y b then withAmount a b else b) ↔ b ∈ rows := by
  rw [List.mem_map]
  constructor
  · rintro ⟨b', hb', hbb⟩
    by_cases hk : keyIs m y b' = true
    · rw [if_pos hk] at hbb
      subst hbb
      rw [keyIs_withAmount, hk] at hb
      cases hb
    · rw [if_neg hk] at hbb
      exact hbb ▸ hb'
  · intro hmem
    exact ⟨b, hmem, by rw [hb]; rfl⟩

/-- One sequential `setBudget` with all three values given, on a table with unique
keys: the answer is `ok`, keys stay unique, the key holds exactly one row, with the
given amount, and rows of other keys are untouched. -/
theorem setBudget_step (db : Db) (m y : Int) (a : ℚ) (huniq : (db.budgets.map budgetKey).Nodup) :
    (setBudget db (.val m) (.val y) (.val a)).1 = .ok true
      ∧ ((setBudget db (.val m) (.val y) (.val a)).2.budgets.map budgetKey).Nodup
      ∧ (∃ row, (setBudget db (.val m) (.val y) (.val a)).2.budgets.filter (keyIs m y) = [row]
          ∧ row.amount = a)
      ∧ (∀ b : Budget, keyIs m y b = false →
          (b ∈ (setBudget db (.val m) (.val y) (.val a)).2.budgets ↔ b ∈ db.budgets)) := by
  have hle := filter_key_length_le_one db.budgets m y huniq
  by_cases hzero : (db.budgets.filter (keyIs m y)).length = 0
  · -- no row changed: the row is inserted
    have hnil : db.budgets.filter (keyIs m y) = [] := List.length_eq_zero.mp hzero
    have hno : ∀ b ∈ db.budgets, ¬ keyIs m y b = true := List.filter_eq_nil_iff.mp hnil
    have hmapid : db.budgets.map (fun b => if keyIs m y b then withAmount a b else b)
        = db.budgets := by
      conv_rhs => rw [← List.map_id db.budgets]
      apply List.map_congr_left
      intro b hb
      rw [if_neg (hno b hb)]
      rfl
    have hany : db.budgets.any (keyIs m y) = false := by
      rw [List.any_eq_false]
      exact hno
    have hset : (setBudget db (.val m) (.val y) (.val a)).1 = .ok true
        ∧ (setBudget db (.val m) (.val y) (.val a)).2.budgets
          = db.budgets ++ [⟨nextRowid (db.budgets.map (·.id)) db.budgetsSeq, m, y, a⟩] := by
      unfold setBudget
      simp only [Field.isUndefined, Field.toSql, Bool.or_self, Bool.false_eq_true, ↓reduceIte,
        updateBudget_some, hzero, hmapid, insertBudget_some, hany, and_self]
    obtain ⟨h1, h2⟩ := hset
    refine ⟨h1, ?_, ?_, ?_⟩
    · rw [h2, List.map_append, List.nodup_append]
      refine ⟨huniq, by simp, ?_⟩
      intro k hk1 hk2
      simp only [List.map_cons, List.map_nil, List.mem_singleton] at hk2
      subst hk2
      rw [List.mem_map] at hk1
      obtain ⟨b, hb, hbk⟩ := hk1
      exact hno b hb ((keyIs_iff m y b).mpr hbk)
    · refine ⟨⟨nextRowid (db.budgets.map (·.id)) db.budgetsSeq, m, y, a⟩, ?_, rfl⟩
      rw [h2, List.filter_append, hnil]
      simp [keyIs]
    · intro b hb
      rw [h2, List.mem_append, List.mem_singleton]
      constructor
      · rintro (h | h)
        · exact h
        · subst h
          simp [keyIs] at hb
      · exact Or.inl
  · -- one row changed
    have hone : (db.budgets.filter (keyIs m y)).length = 1 := by omega
    obtain ⟨b0, hb0⟩ := List.length_eq_one.mp hone
    have hset : (setBudget db (.val m) (.val y) (.val a)).1 = .ok true
        ∧ (setBudget db (.val m) (.val y) (.val a)).2.budgets
          = db.budgets.map (fun b => if keyIs m y b then withAmount a b else b) := by
      unfold setBudget
      simp only [Field.isUndefined, Field.toSql, Bool.or_self, Bool.false_eq_true, ↓reduceIte,
        updateBudget_some, hzero, and_self]
    obtain ⟨h1, h2⟩ := hset
    refine ⟨h1, ?_, ?_, ?_⟩
    · rw [h2, map_update_keys]
      exact huniq
    · refine ⟨withAmount a b0, ?_, rfl⟩
      rw [h2, filter_map_update, hb0]
      rfl
    · intro b hb
      rw [h2]
      exact mem_map_update_of_other _ _ _ _ _ hb

/-- C3: on a budget table with at most one row per `(month, year)`, a sequential
`setBudget(month, year, amount)` with all three values given answers `ok`, leaves at
most one row per key, leaves exactly one row for the given key, carrying the given
amount, and leaves every row of another key as it was; a second call for the same
key with another amount again leaves exactly one row for the key, with the second
amount. -/
theorem setBudget_upsert (db : Db) (m y : Int) (a1 a2 : ℚ)
    (huniq : (db.budgets.map budgetKey).Nodup) :
    (setBudget db (.val m) (.val y) (.val a1)).1 = .ok true
      ∧ ((setBudget db (.val m) (.val y) (.val a1)).2.budgets.map budgetKey).Nodup
      ∧ (∃ row, (setBudget db (.val m) (.val y) (.val a1)).2.budgets.filter (keyIs m y) = [row]
          ∧ row.amount = a1)
      ∧ (∀ b : Budget, keyIs m y b = false →
          (b ∈ (setBudget db (.val m) (.val y) (.val a1)).2.budgets ↔ b ∈ db.budgets))
      ∧ (setBudget (setBudget db (.val m) (.val y) (.val a1)).2 (.val m) (.val y) (.val a2)).1
          = .ok true
      ∧ (∃ row,
          (setBudget (setBudget db (.val m) (.val y) (.val a1)).2
              (.val m) (.val y) (.val a2)).2.budgets.filter (keyIs m y) = [row]
          ∧ row.amount = a2) := by
  obtain ⟨h1, h2, h3, h4⟩ := setBudget_step db m y a1 huniq
  obtain ⟨k1, -, k3, -⟩ := setBudget_step (setBudget db (.val m) (.val y) (.val a1)).2 m y a2 h2
  exact ⟨h1, h2, h3, h4, k1, k3⟩

/-- Witness for C3: the budget of March 2025 of the demo store is set to 5000 and
then to 7000. -/
theorem setBudget_upsert_witness :
    (setBudget demoDb (.val 2) (.val 2025) (.val 5000)).1 = .ok true
      ∧ ((setBudget demoDb (.val 2) (.val 2025) (.val 5000)).2.budgets.map budgetKey).Nodup
      ∧ (∃ row, (setBudget demoDb (.val 2) (.val 2025) (.val 5000)).2.budgets.filter
            (keyIs 2 2025) = [row] ∧ row.amount = 5000)
      ∧ (∀ b : Budget, keyIs 2 2025 b = false →
          (b ∈ (setBudget demoDb (.val 2) (.val 2025) (.val 5000)).2.budgets
            ↔ b ∈ demoDb.budgets))
      ∧ (setBudget (setBudget demoDb (.val 2) (.val 2025) (.val 5000)).2
            (.val 2) (.val 2025) (.val 7000)).1 = .ok true
      ∧ (∃ row,
          (setBudget (setBudget demoDb (.val 2) (.val 2025) (.val 5000)).2
              (.val 2) (.val 2025) (.val 7000)).2.budgets.filter (keyIs 2 2025) = [row]
          ∧ row.amount = 7000) :=
  setBudget_upsert demoDb 2 2025 5000 7000 (by decide)

/-! ## Listing transactions -/

/-- A year beyond the range of `Date` makes `toISOString()` throw: the request is
answered by the default error handler instead of a list. -/
theorem listTransactions_far_year :
    listTransactions utc demoDb (some (.num 0)) (some (.num 300000)) = .uncaught := by
  decide

/-- The rowid `AUTOINCREMENT` assigns is larger than every rowid in the table. -/
theorem lt_nextRowid (ids : List Nat) (seq : Nat) : ∀ i ∈ ids, i < nextRowid ids seq := by
  unfold nextRowid
  induction ids with
  | nil => simp
  | cons j ids ih =>
    intro i hi
    rw [List.foldr_cons]
    rcases List.mem_cons.mp hi with h | h
    · subst h
      exact Nat.lt_succ_of_le (le_max_left _ _)
    · exact lt_of_lt_of_le (ih i h) (Nat.succ_le_succ (le_max_right _ _))

/-- Creating a transaction keeps the ids of the table distinct. -/
theorem createTransaction_ids_nodup (db : Db) (body : NewTransaction) (now : String)
    (hids : (db.transactions.map (·.id)).Nodup) :
    ((createTransaction db body now).2.transactions.map (·.id)).Nodup := by
  unfold createTransaction
  split_ifs
  · exact hids
  · cases hd : body.date.toSql with
    | none => simpa [insertTransaction, hd] using hids
    | some d =>
      cases hty : body.type.toSql with
      | none => simpa [insertTransaction, hd, hty] using hids
      | some ty =>
        cases ha : body.amount.toSql with
        | none => simpa [insertTransaction, hd, hty, ha] using hids
        | some a =>
          simp only [insertTransaction, hd, hty, ha, List.map_append, List.map_cons,
            List.map_nil]
          rw [List.nodup_append]
          refine ⟨hids, by simp, ?_⟩
          intro i hi hi'
          rw [List.mem_singleton] at hi'
          have := lt_nextRowid (db.transactions.map (·.id)) db.transactionsSeq i hi
          omega

/-- Deleting a transaction keeps the ids of the table distinct. -/
theorem deleteTransaction_ids_nodup (db : Db) (id : JsNumber)
    (hids : (db.transactions.map (·.id)).Nodup) :
    ((deleteTransaction db id).2.transactions.map (·.id)).Nodup :=
  List.Nodup.sublist ((List.filter_sublist _).map _) hids

end PFMS
